import Mathlib

/-!
# Shallow embedding of the go-inventory-system core

This file embeds the authentication and inventory business logic of the
`nielwyn/go-inventory-system` repository (Go, Gin + GORM + golang-jwt/v5 +
bcrypt) and proves the testable properties of its specification.

Embedding conventions:
* Go errors (`errors.New`, `fmt.Errorf`) are `Except String`.
* The GORM-backed stores are lists of records plus a fresh-id counter;
  GORM's soft-delete default scope is an explicit filter on a `deleted` flag.
  The items table carries a plain unique index on sku (`gorm:"uniqueIndex"`
  on `models.Item.SKU`, created by AutoMigrate; the reference schema declares
  `sku VARCHAR(100) UNIQUE NOT NULL`): it covers ALL rows, soft-deleted ones
  included, so INSERT (`db.Create`) and UPDATE (`db.Save`) fail with the
  driver's duplicate-key error when the written SKU is carried by another
  stored row, even a soft-deleted one.
* bcrypt is modelled as a symbolic injective hash with its verify relation.
* JWT tokens are modelled structurally: a token string is either malformed
  or a (header algorithm, claims, signature) triple, and an HMAC signature
  is the symbolic triple (algorithm, key, payload), so that a signature
  verifies exactly when it was produced over the same payload with the same
  algorithm and key.
* `time.Time` instants are `Int` Unix seconds; `float64` prices are `Rat`
  (the code only stores and copies prices, it never computes with them).
-/

namespace GoInventory

/-! ## User model (internal/models/user.go) -/

/-- `models.User`: id, unique username, unique email, bcrypt password hash.
Users are never deleted in the base flow, so no deleted flag is modelled. -/
structure User where
  id : Nat
  username : String
  email : String
  password : String
deriving DecidableEq, Repr

/-- `models.RegisterRequest`. -/
structure RegisterRequest where
  username : String
  email : String
  password : String
deriving DecidableEq, Repr

/-- `models.LoginRequest`. -/
structure LoginRequest where
  username : String
  password : String
deriving DecidableEq, Repr

/-! ## Password hashing collaborator (golang.org/x/crypto/bcrypt)

Modelled from the spec: the Password Hashing external collaborator exposes
`Hash(plaintext) -> hash` and `Verify(hash, plaintext) -> bool`.  The model
is a symbolic injective hash; salting is irrelevant to the properties
proved here (only `Verify (Hash p) p = true` and injectivity are used). -/

/-- Symbolic `bcrypt.GenerateFromPassword`. -/
def bcryptGenerateFromPassword (pw : String) : String :=
  "bcrypt(" ++ pw ++ ")"

/-- Symbolic `bcrypt.CompareHashAndPassword`: succeeds exactly when the hash
was generated from the given plaintext. -/
def bcryptCompareHashAndPassword (hash pw : String) : Bool :=
  hash == bcryptGenerateFromPassword pw

/-! ## User store (repository.UserRepository) -/

/-- The persisted user table plus the next primary key the store will assign. -/
structure UserStore where
  users : List User
  nextId : Nat
deriving DecidableEq, Repr

/-- Modelled from the spec: `FindUserByUsername(username) -> User|absent, error`.
The user repository implementation (internal/repository/user_repository.go) is
not under src/; per the stated store interface, absent is distinguished from
error, matching the inventory repository pattern of returning nil, nil on
`gorm.ErrRecordNotFound`. -/
def findUserByUsername (st : UserStore) (username : String) : Option User :=
  st.users.find? (fun u => u.username == username)

/-- Modelled from the spec: `FindUserByEmail(email) -> User|absent, error`. -/
def findUserByEmail (st : UserStore) (email : String) : Option User :=
  st.users.find? (fun u => u.email == email)

/-! ## Auth service (internal/service/auth_service.go) -/

/-- `authService.Register` (auth_service.go:37-74): check username uniqueness,
then email uniqueness, then hash the password, then persist.  Returns the
result together with the post-state of the store, which is unchanged on every
failure path. -/
def Register (st : UserStore) (req : RegisterRequest) :
    Except String User × UserStore :=
  match findUserByUsername st req.username with
  | some _ => (.error "username already exists", st)
  | none =>
    match findUserByEmail st req.email with
    | some _ => (.error "email already exists", st)
    | none =>
      let hashedPassword := bcryptGenerateFromPassword req.password
      let user : User :=
        { id := st.nextId
          username := req.username
          email := req.email
          password := hashedPassword }
      (.ok user, { users := st.users ++ [user], nextId := st.nextId + 1 })

/-! ## JWT model (github.com/golang-jwt/jwt/v5) -/

/-- Signing algorithms relevant to the validator's method check.  HS256,
HS384 and HS512 are the `*jwt.SigningMethodHMAC` instances; the others stand
for non-HMAC methods a forged token header could name. -/
inductive SigAlg where
  | HS256
  | HS384
  | HS512
  | RS256
  | ES256
  | algNone
deriving DecidableEq, Repr

/-- The type assertion `token.Method.(*jwt.SigningMethodHMAC)` in the keyfunc:
true exactly for the HMAC family, not only for HS256. -/
def SigAlg.isHMAC : SigAlg → Bool
  | .HS256 => true
  | .HS384 => true
  | .HS512 => true
  | _ => false

/-- `jwt.MapClaims` restricted to the claims this service reads and writes.
JSON numbers decode to float64; uint user ids round-trip exactly through
float64 in the relevant range, so the subject is carried as `Option Nat`
(none models an absent `user_id` claim). -/
structure MapClaims where
  user_id : Option Nat
  exp : Option Int
  iat : Option Int
deriving DecidableEq, Repr

/-- A symbolic HMAC signature: the triple of algorithm, key and signed
payload.  Verification of a signature against (alg, key, payload) succeeds
exactly when the signature is this triple. -/
structure Signature where
  alg : SigAlg
  key : String
  payload : MapClaims
deriving DecidableEq, Repr

/-- Producing an HMAC signature over a payload. -/
def hmacSign (alg : SigAlg) (key : String) (payload : MapClaims) : Signature :=
  ⟨alg, key, payload⟩

/-- A wire-format token string: either structurally malformed, or a
well-formed JWT whose header names `alg`, whose payload is `claims`, and
whose third segment is `sig`. -/
inductive TokenString where
  | malformed (raw : String)
  | wellFormed (alg : SigAlg) (claims : MapClaims) (sig : Signature)
deriving DecidableEq, Repr

/-- The claims of a well-formed token string, as visible in its payload. -/
def tokenClaims : TokenString → Option MapClaims
  | .malformed _ => none
  | .wellFormed _ claims _ => some claims

/-- The `*jwt.Token` value produced by `jwt.Parse`. -/
structure ParsedToken where
  method : SigAlg
  claims : MapClaims
  valid : Bool
deriving DecidableEq, Repr

/-- `jwt.Parse` (golang-jwt/jwt/v5) with this service's keyfunc: reject a
malformed structure; run the keyfunc, which rejects any non-HMAC signing
method; verify the signature with the secret under the token's own header
algorithm; then validate registered claims, where `exp` (checked with zero
leeway) requires now to be strictly before the expiry instant. -/
def jwtParse (secret : String) (now : Int) (ts : TokenString) :
    Except String ParsedToken :=
  match ts with
  | .malformed _ => .error "token is malformed"
  | .wellFormed alg claims sig =>
    if alg.isHMAC = false then
      .error "unexpected signing method"
    else if sig ≠ hmacSign alg secret claims then
      .error "token signature is invalid"
    else
      match claims.exp with
      | some e =>
        if now < e then .ok ⟨alg, claims, true⟩
        else .error "token has invalid claims: token is expired"
      | none => .ok ⟨alg, claims, true⟩

/-- `authService.generateToken` (auth_service.go:104-114): HS256-signed
claims `{user_id, exp := now + jwtExpiry hours, iat := now}`. -/
def generateToken (secret : String) (jwtExpiry : Int) (now : Int)
    (userID : Nat) : TokenString :=
  let claims : MapClaims :=
    { user_id := some userID
      exp := some (now + 3600 * jwtExpiry)
      iat := some now }
  .wellFormed .HS256 claims (hmacSign .HS256 secret claims)

/-- `authService.ValidateToken` (auth_service.go:116-134): parse with the
HMAC-checking keyfunc, propagate any parse error, and reject a parsed but
invalid token. -/
def ValidateToken (secret : String) (now : Int) (tokenString : TokenString) :
    Except String ParsedToken :=
  match jwtParse secret now tokenString with
  | .error e => .error e
  | .ok token =>
    if token.valid = false then .error "invalid token" else .ok token

/-- `authService.GetUserFromToken` (auth_service.go:136-149): extract the
`user_id` claim. -/
def GetUserFromToken (token : ParsedToken) : Except String Nat :=
  match token.claims.user_id with
  | some userID => .ok userID
  | none => .error "user_id not found in token"

/-- `models.LoginResponse`. -/
structure LoginResponse where
  token : TokenString
  user : User
deriving DecidableEq, Repr

/-- `authService.Login` (auth_service.go:77-102): look up by username
(absent gives the same message as a wrong password), verify the bcrypt hash,
then issue a token for the user's id. -/
def Login (secret : String) (jwtExpiry : Int) (now : Int) (st : UserStore)
    (req : LoginRequest) : Except String LoginResponse :=
  match findUserByUsername st req.username with
  | none => .error "invalid username or password"
  | some user =>
    if bcryptCompareHashAndPassword user.password req.password = false then
      .error "invalid username or password"
    else
      .ok { token := generateToken secret jwtExpiry now user.id, user := user }

/-! ## Auth middleware (internal/middleware/auth.go) and login handler -/

/-- Outcome of the Gin auth middleware for a request: abort with an HTTP
status and message, or proceed with the authenticated user id set in the
context. -/
inductive MiddlewareResult where
  | abort (status : Nat) (message : String)
  | proceed (userID : Nat)
deriving DecidableEq, Repr

/-- `middleware.Auth` (auth.go:32-55), from the point where the bearer token
string has been extracted from the Authorization header: any `ValidateToken`
failure aborts with 401 "Invalid or expired token"; a claims-extraction
failure aborts with 401 "Invalid token claims"; otherwise the request
proceeds as the extracted user. -/
def Auth (secret : String) (now : Int) (tokenString : TokenString) :
    MiddlewareResult :=
  match ValidateToken secret now tokenString with
  | .error _ => .abort 401 "Invalid or expired token"
  | .ok token =>
    match GetUserFromToken token with
    | .error _ => .abort 401 "Invalid token claims"
    | .ok userID => .proceed userID

/-- Outcome of the login HTTP handler: an error envelope with a status and
message, or a success envelope carrying the login response. -/
inductive LoginHttpResult where
  | errorResp (status : Nat) (message : String)
  | successResp (status : Nat) (message : String) (data : LoginResponse)
deriving DecidableEq, Repr

/-- `AuthHandler.Login` (handlers/auth.go): a service error is returned as a
401 envelope carrying the service error message; success is a 200 envelope. -/
def loginHandler (secret : String) (jwtExpiry : Int) (now : Int)
    (st : UserStore) (req : LoginRequest) : LoginHttpResult :=
  match Login secret jwtExpiry now st req with
  | .error e => .errorResp 401 e
  | .ok resp => .successResp 200 "Login successful" resp

/-! ## Item model (internal/models/item.go) -/

/-- `models.Item`.  `DeletedAt gorm.DeletedAt` is modelled as the `deleted`
flag; GORM's default scope excludes soft-deleted rows from reads.  `Price`
is float64 in Go; the code only stores and copies prices, so `Rat` is an
exact model of every value that flows through these operations. -/
structure Item where
  id : Nat
  name : String
  sku : String
  description : String
  quantity : Int
  price : Rat
  category : String
  deleted : Bool
deriving DecidableEq, Repr

/-- `models.CreateItemRequest` (all fields present; the boundary's binding
tags require `quantity` and `price` to be non_negative). -/
structure CreateItemRequest where
  name : String
  sku : String
  description : String
  quantity : Int
  price : Rat
  category : String
deriving DecidableEq, Repr

/-- `models.UpdateItemRequest`: every field is a pointer (`omitempty`), so
`none` models a field absent from the PATCH body. -/
structure UpdateItemRequest where
  name : Option String
  sku : Option String
  description : Option String
  quantity : Option Int
  price : Option Rat
  category : Option String
deriving DecidableEq, Repr

/-! ## Inventory repository (internal/repository/inventory_repository.go) -/

/-- The persisted items table (soft-deleted rows included) plus the next
primary key the store will assign. -/
structure ItemStore where
  items : List Item
  nextId : Nat
deriving DecidableEq, Repr

/-- The rows GORM's default scope sees: non-deleted items. -/
def activeItems (st : ItemStore) : List Item :=
  st.items.filter (fun i => !i.deleted)

/-- `inventoryRepository.FindAll` (repository:35-39): all non-deleted items. -/
def FindAll (st : ItemStore) : List Item :=
  activeItems st

/-- `inventoryRepository.FindByID` (repository:42-52): first non-deleted item
with the id, or absent (nil, nil on `gorm.ErrRecordNotFound`). -/
def FindByID (st : ItemStore) (id : Nat) : Option Item :=
  (activeItems st).find? (fun i => i.id == id)

/-- `inventoryRepository.FindBySKU` (repository:55-65): first non-deleted
item with the SKU, or absent. -/
def FindBySKU (st : ItemStore) (sku : String) : Option Item :=
  (activeItems st).find? (fun i => i.sku == sku)

/-- The driver's unique-constraint violation surfaced by GORM when an INSERT
or UPDATE collides with the items table's unique index on sku; the exact
driver text is backend-specific and both the repository and the service
propagate the error verbatim. -/
def duplicateKeyError : String :=
  "duplicate key value violates unique constraint on sku"

/-- A successful INSERT: append the row, advance the primary-key counter. -/
def insertRow (st : ItemStore) (item : Item) : ItemStore :=
  { items := st.items ++ [item], nextId := st.nextId + 1 }

/-- `inventoryRepository.Create` (repository:30-32): `db.Create(item)`
INSERTs the row.  The items table's unique index on sku covers all rows,
soft-deleted included, so the INSERT fails with the duplicate-key error
whenever any stored row carries the item's SKU. -/
def repoCreate (st : ItemStore) (item : Item) : Except String ItemStore :=
  if st.items.any (fun j => j.sku == item.sku) then
    .error duplicateKeyError
  else
    .ok (insertRow st item)

/-- A successful UPDATE: overwrite all fields of the row with the item's
primary key. -/
def saveRow (st : ItemStore) (item : Item) : ItemStore :=
  { st with items := st.items.map (fun j => if j.id == item.id then item else j) }

/-- `inventoryRepository.Update` (repository:68-70): `db.Save(item)` UPDATEs
all fields of the row with the item's primary key.  The same all-rows unique
index on sku rejects a SKU carried by any other row, soft-deleted included. -/
def repoUpdate (st : ItemStore) (item : Item) : Except String ItemStore :=
  if st.items.any (fun j => j.sku == item.sku && j.id != item.id) then
    .error duplicateKeyError
  else
    .ok (saveRow st item)

/-- `inventoryRepository.Delete` (repository:73-75): `db.Delete(&Item{}, id)`
soft-deletes, setting `deleted_at` on the non-deleted row with this id. -/
def repoDelete (st : ItemStore) (id : Nat) : ItemStore :=
  { st with
      items := st.items.map (fun j =>
        if j.id == id && !j.deleted then { j with deleted := true } else j) }

/-! ## Inventory service (internal/service/inventory_service.go) -/

/-- The item value `CreateItem` constructs from a request
(inventory_service.go:41-48); the store assigns the next primary key. -/
def newItem (st : ItemStore) (req : CreateItemRequest) : Item :=
  { id := st.nextId
    name := req.name
    sku := req.sku
    description := req.description
    quantity := req.quantity
    price := req.price
    category := req.category
    deleted := false }

/-- `inventoryService.CreateItem` (inventory_service.go:29-55): reject when a
non-deleted item already carries the SKU, otherwise hand the new item to
`repo.Create` and propagate its error — in particular the duplicate-key
failure when a soft-deleted row still carries the SKU.  The post-state of
the store is returned alongside the result and is unchanged on every
failure path. -/
def CreateItem (st : ItemStore) (req : CreateItemRequest) :
    Except String Item × ItemStore :=
  match FindBySKU st req.sku with
  | some _ => (.error "item with this SKU already exists", st)
  | none =>
    match repoCreate st (newItem st req) with
    | .error e => (.error e, st)
    | .ok st2 => (.ok (newItem st req), st2)

/-- `inventoryService.GetAllItems` (inventory_service.go:58-60). -/
def GetAllItems (st : ItemStore) : List Item :=
  FindAll st

/-- `inventoryService.GetItemByID` (inventory_service.go:63-72). -/
def GetItemByID (st : ItemStore) (id : Nat) : Except String Item :=
  match FindByID st id with
  | none => .error "item not found"
  | some item => .ok item

/-- The SKU branch of `UpdateItem` (inventory_service.go:86-95): when a SKU
is supplied and differs from the current one, re-check uniqueness and apply
it; a supplied-but-identical SKU skips the check. -/
def applySkuUpdate (st : ItemStore) (item : Item) (req : UpdateItemRequest) :
    Except String Item :=
  match req.sku with
  | some s =>
    if s ≠ item.sku then
      match FindBySKU st s with
      | some _ => .error ("item with SKU \x27" ++ s ++ "\x27 already exists")
      | none => .ok { item with sku := s }
    else .ok item
  | none => .ok item

/-- The field-patching block of `UpdateItem` (inventory_service.go:97-112):
each supplied field overwrites, each absent field is kept. -/
def applyFieldUpdates (item : Item) (req : UpdateItemRequest) : Item :=
  { item with
      name := req.name.getD item.name
      description := req.description.getD item.description
      quantity := req.quantity.getD item.quantity
      price := req.price.getD item.price
      category := req.category.getD item.category }

/-- `inventoryService.UpdateItem` (inventory_service.go:74-120): find the
item (NotFound if absent), run the SKU uniqueness branch, patch the supplied
fields, and hand the row to `repo.Update`, propagating its error — in
particular the duplicate-key failure when the written SKU is carried by
another row, soft-deleted included.  The post-state is unchanged on every
failure path. -/
def UpdateItem (st : ItemStore) (id : Nat) (req : UpdateItemRequest) :
    Except String Item × ItemStore :=
  match FindByID st id with
  | none => (.error "item not found", st)
  | some item0 =>
    match applySkuUpdate st item0 req with
    | .error e => (.error e, st)
    | .ok item1 =>
      match repoUpdate st (applyFieldUpdates item1 req) with
      | .error e => (.error e, st)
      | .ok st2 => (.ok (applyFieldUpdates item1 req), st2)

/-- `inventoryService.DeleteItem` (inventory_service.go:122-134): existence
check first, then soft delete. -/
def DeleteItem (st : ItemStore) (id : Nat) :
    Except String Unit × ItemStore :=
  match FindByID st id with
  | none => (.error "item not found", st)
  | some _ => (.ok (), repoDelete st id)

/-! ## Inventory state invariants -/

/-- The boundary's `non_negative` binding constraints on a create request. -/
def CreateItemRequest.NonNegative (req : CreateItemRequest) : Prop :=
  0 ≤ req.quantity ∧ 0 ≤ req.price

/-- The boundary's `omitempty,non_negative` binding constraints on an update
request. -/
def UpdateItemRequest.NonNegative (req : UpdateItemRequest) : Prop :=
  (∀ q ∈ req.quantity, 0 ≤ q) ∧ (∀ p ∈ req.price, 0 ≤ p)

/-- Store well-formedness: primary keys are pairwise distinct and below the
next key the store will assign. -/
def IdsWf (st : ItemStore) : Prop :=
  (st.items.map Item.id).Nodup ∧ ∀ i ∈ st.items, i.id < st.nextId

/-- The spec invariant: SKU is unique across all non-deleted items (two
non-deleted rows with the same SKU are the same row). -/
def SkuUniqueActive (st : ItemStore) : Prop :=
  ∀ a ∈ st.items, ∀ b ∈ st.items,
    a.deleted = false → b.deleted = false → a.sku = b.sku → a.id = b.id

/-- The spec invariant: quantity and price are never negative. -/
def NonNegValues (st : ItemStore) : Prop :=
  ∀ i ∈ st.items, 0 ≤ i.quantity ∧ 0 ≤ i.price

/-- The full state invariant preserved by the business layer. -/
def Inv (st : ItemStore) : Prop :=
  IdsWf st ∧ SkuUniqueActive st ∧ NonNegValues st

/-- A business-layer inventory operation, as named in the service interface. -/
inductive InvOp where
  | create (req : CreateItemRequest)
  | update (id : Nat) (req : UpdateItemRequest)
  | delete (id : Nat)
deriving DecidableEq, Repr

/-- The store effect of one business-layer operation. -/
def applyOp (st : ItemStore) : InvOp → ItemStore
  | .create req => (CreateItem st req).2
  | .update id req => (UpdateItem st id req).2
  | .delete id => (DeleteItem st id).2

/-- An operation whose request passed the boundary's binding validation. -/
def InvOp.NonNegative : InvOp → Prop
  | .create req => req.NonNegative
  | .update _ req => req.NonNegative
  | .delete _ => True

/-- The store a fresh deployment starts from. -/
def emptyItemStore : ItemStore :=
  { items := [], nextId := 1 }

/-! ## Theorems: authentication -/

/-- C2: For every Register request, a taken username yields
Conflict("username already exists") with the store unchanged (regardless of
the email's status, so the username check comes first), and a fresh username
with a taken email yields Conflict("email already exists") with the store
unchanged; on both failure paths the outcome is a fixed value independent of
the password, so no hashing result or persistence enters it. -/
theorem register_uniqueness_checks (st : UserStore) (req : RegisterRequest) :
    ((findUserByUsername st req.username).isSome = true →
      Register st req = (.error "username already exists", st)) ∧
    (findUserByUsername st req.username = none →
      (findUserByEmail st req.email).isSome = true →
      Register st req = (.error "email already exists", st)) := by
  constructor
  · intro h
    cases hu : findUserByUsername st req.username with
    | none => rw [hu] at h; simp at h
    | some u => simp [Register, hu]
  · intro hu he
    cases hm : findUserByEmail st req.email with
    | none => rw [hm] at he; simp at he
    | some u => simp [Register, hu, hm]

/-- Witness for C2 at concrete inputs: a store holding johndoe registers a
conflict for a reused username and for a reused email, both leaving the
store untouched. -/
theorem register_uniqueness_checks_witness :
    (Register ⟨[⟨1, "johndoe", "john@example.com", "h1"⟩], 2⟩
        ⟨"johndoe", "other@example.com", "pw"⟩ =
      (.error "username already exists",
        ⟨[⟨1, "johndoe", "john@example.com", "h1"⟩], 2⟩)) ∧
    (Register ⟨[⟨1, "johndoe", "john@example.com", "h1"⟩], 2⟩
        ⟨"janedoe", "john@example.com", "pw"⟩ =
      (.error "email already exists",
        ⟨[⟨1, "johndoe", "john@example.com", "h1"⟩], 2⟩)) :=
  ⟨(register_uniqueness_checks _ _).1 (by decide),
   (register_uniqueness_checks _ _).2 (by decide) (by decide)⟩

/-- C3: a login for a nonexistent username and a login for an existing user
with a wrong password produce the same service error, and the handler turns
both into the same 401 envelope, so the response does not reveal whether the
username exists. -/
theorem login_failure_indistinguishable (secret : String) (jwtExpiry now : Int)
    (st : UserStore) (req1 req2 : LoginRequest) (u : User)
    (h1 : findUserByUsername st req1.username = none)
    (h2 : findUserByUsername st req2.username = some u)
    (h3 : bcryptCompareHashAndPassword u.password req2.password = false) :
    Login secret jwtExpiry now st req1 = .error "invalid username or password" ∧
    Login secret jwtExpiry now st req2 = .error "invalid username or password" ∧
    loginHandler secret jwtExpiry now st req1 =
      .errorResp 401 "invalid username or password" ∧
    loginHandler secret jwtExpiry now st req2 =
      .errorResp 401 "invalid username or password" := by
  have e1 : Login secret jwtExpiry now st req1 =
      .error "invalid username or password" := by
    simp [Login, h1]
  have e2 : Login secret jwtExpiry now st req2 =
      .error "invalid username or password" := by
    simp [Login, h2, h3]
  exact ⟨e1, e2, by simp [loginHandler, e1], by simp [loginHandler, e2]⟩

/-- Witness for C3: a ghost username and johndoe with a wrong password are
answered identically. -/
theorem login_failure_indistinguishable_witness :
    Login "k" 24 0 ⟨[⟨1, "johndoe", "john@example.com",
        bcryptGenerateFromPassword "secret123"⟩], 2⟩ ⟨"ghost", "whatever"⟩ =
      .error "invalid username or password" ∧
    Login "k" 24 0 ⟨[⟨1, "johndoe", "john@example.com",
        bcryptGenerateFromPassword "secret123"⟩], 2⟩ ⟨"johndoe", "wrongpw"⟩ =
      .error "invalid username or password" ∧
    loginHandler "k" 24 0 ⟨[⟨1, "johndoe", "john@example.com",
        bcryptGenerateFromPassword "secret123"⟩], 2⟩ ⟨"ghost", "whatever"⟩ =
      .errorResp 401 "invalid username or password" ∧
    loginHandler "k" 24 0 ⟨[⟨1, "johndoe", "john@example.com",
        bcryptGenerateFromPassword "secret123"⟩], 2⟩ ⟨"johndoe", "wrongpw"⟩ =
      .errorResp 401 "invalid username or password" :=
  login_failure_indistinguishable "k" 24 0 _ _ _
    ⟨1, "johndoe", "john@example.com", bcryptGenerateFromPassword "secret123"⟩
    (by decide) (by decide) (by decide)

/-- C1: for a user found under their username whose stored hash matches the
supplied password, Login succeeds, the response carries that user, the
issued token's payload has `user_id` equal to the user's id and expiry
issue-time plus the configured hours, and for every instant strictly before
the expiry, ValidateToken succeeds and GetUserFromToken returns that same
id. -/
theorem login_validate_roundtrip (secret : String)
    (jwtExpiry issueTime checkTime : Int) (st : UserStore) (u : User)
    (pw : String)
    (hfind : findUserByUsername st u.username = some u)
    (hpw : u.password = bcryptGenerateFromPassword pw)
    (hcheck : checkTime < issueTime + 3600 * jwtExpiry) :
    ∃ resp,
      Login secret jwtExpiry issueTime st ⟨u.username, pw⟩ = .ok resp ∧
      resp.user = u ∧
      tokenClaims resp.token =
        some ⟨some u.id, some (issueTime + 3600 * jwtExpiry), some issueTime⟩ ∧
      ∃ tok, ValidateToken secret checkTime resp.token = .ok tok ∧
        GetUserFromToken tok = .ok u.id := by
  have hcmp : bcryptCompareHashAndPassword u.password pw = true := by
    simp [bcryptCompareHashAndPassword, hpw]
  refine ⟨{ token := generateToken secret jwtExpiry issueTime u.id, user := u },
    ?_, rfl, ?_, ?_⟩
  · simp [Login, hfind, hcmp]
  · simp [generateToken, tokenClaims]
  · refine ⟨⟨.HS256,
      ⟨some u.id, some (issueTime + 3600 * jwtExpiry), some issueTime⟩, true⟩,
      ?_, rfl⟩
    simp [ValidateToken, jwtParse, generateToken, SigAlg.isHMAC, hmacSign,
      hcheck]

/-- Witness for C1: johndoe logs in with the correct password at time 0 and
the token validates at time 5000 (before the 24-hour expiry), returning id 1. -/
theorem login_validate_roundtrip_witness :
    ∃ resp,
      Login "k" 24 0 ⟨[⟨1, "johndoe", "john@example.com",
          bcryptGenerateFromPassword "secret123"⟩], 2⟩
        ⟨"johndoe", "secret123"⟩ = .ok resp ∧
      resp.user = ⟨1, "johndoe", "john@example.com",
        bcryptGenerateFromPassword "secret123"⟩ ∧
      tokenClaims resp.token = some ⟨some 1, some (0 + 3600 * 24), some 0⟩ ∧
      ∃ tok, ValidateToken "k" 5000 resp.token = .ok tok ∧
        GetUserFromToken tok = .ok 1 :=
  login_validate_roundtrip "k" 24 0 5000 _
    ⟨1, "johndoe", "john@example.com", bcryptGenerateFromPassword "secret123"⟩
    "secret123" (by decide) rfl (by decide)

/-- C5: a token issued by generateToken is rejected by ValidateToken at
every instant at or after its expiry `issueTime + 3600 * jwtExpiry`,
including the boundary instant itself, with the expiry error from the
claims validator. -/
theorem validate_rejects_expired (secret : String)
    (jwtExpiry issueTime now : Int) (uid : Nat)
    (h : issueTime + 3600 * jwtExpiry ≤ now) :
    ValidateToken secret now (generateToken secret jwtExpiry issueTime uid) =
      .error "token has invalid claims: token is expired" := by
  simp [ValidateToken, generateToken, jwtParse, SigAlg.isHMAC, hmacSign,
    not_lt.mpr h]

/-- Witness for C5 at the boundary: a 1-hour token issued at time 0 is
rejected exactly at time 3600 = expiresAt. -/
theorem validate_rejects_expired_witness :
    ValidateToken "k" 3600 (generateToken "k" 1 0 7) =
      .error "token has invalid claims: token is expired" :=
  validate_rejects_expired "k" 1 0 3600 7 (by decide)

/-- C4: every failing validation — malformed structure, non-HMAC signing
method, signature mismatch, or expiry in the past — leads the middleware to
the single abort (401, "Invalid or expired token"); and in general any
ValidateToken error whatsoever is mapped to that one caller-visible result. -/
theorem validator_failure_uniform (secret : String) (now : Int) :
    (∀ raw, Auth secret now (.malformed raw) =
      .abort 401 "Invalid or expired token") ∧
    (∀ alg claims sig, alg.isHMAC = false →
      Auth secret now (.wellFormed alg claims sig) =
        .abort 401 "Invalid or expired token") ∧
    (∀ alg claims sig, sig ≠ hmacSign alg secret claims →
      Auth secret now (.wellFormed alg claims sig) =
        .abort 401 "Invalid or expired token") ∧
    (∀ alg claims e, claims.exp = some e → e ≤ now →
      Auth secret now (.wellFormed alg claims (hmacSign alg secret claims)) =
        .abort 401 "Invalid or expired token") ∧
    (∀ ts, (∃ e, ValidateToken secret now ts = .error e) →
      Auth secret now ts = .abort 401 "Invalid or expired token") := by
  have habort : ∀ ts, (∃ e, ValidateToken secret now ts = .error e) →
      Auth secret now ts = .abort 401 "Invalid or expired token" := by
    rintro ts ⟨e, he⟩
    simp [Auth, he]
  refine ⟨?_, ?_, ?_, ?_, habort⟩
  · intro raw
    exact habort _ ⟨"token is malformed", rfl⟩
  · intro alg claims sig halg
    exact habort _ ⟨"unexpected signing method",
      by simp [ValidateToken, jwtParse, halg]⟩
  · intro alg claims sig hsig
    apply habort
    by_cases halg : alg.isHMAC = false
    · exact ⟨"unexpected signing method",
        by simp [ValidateToken, jwtParse, halg]⟩
    · exact ⟨"token signature is invalid",
        by simp [ValidateToken, jwtParse, halg, hsig]⟩
  · intro alg claims e hexp hle
    apply habort
    by_cases halg : alg.isHMAC = false
    · exact ⟨"unexpected signing method",
        by simp [ValidateToken, jwtParse, halg]⟩
    · exact ⟨"token has invalid claims: token is expired",
        by simp [ValidateToken, jwtParse, halg, hexp, not_lt.mpr hle]⟩

/-- Witness for C4: a malformed token, an RS256-headed token, a token signed
with the wrong key, and an expired token all produce the identical abort. -/
theorem validator_failure_uniform_witness :
    Auth "k" 50 (.malformed "garbage") =
      .abort 401 "Invalid or expired token" ∧
    Auth "k" 50 (.wellFormed .RS256 ⟨some 1, some 100, some 0⟩
        (hmacSign .RS256 "k" ⟨some 1, some 100, some 0⟩)) =
      .abort 401 "Invalid or expired token" ∧
    Auth "k" 50 (.wellFormed .HS256 ⟨some 1, some 100, some 0⟩
        (hmacSign .HS256 "wrongkey" ⟨some 1, some 100, some 0⟩)) =
      .abort 401 "Invalid or expired token" ∧
    Auth "k" 200 (.wellFormed .HS256 ⟨some 1, some 100, some 0⟩
        (hmacSign .HS256 "k" ⟨some 1, some 100, some 0⟩)) =
      .abort 401 "Invalid or expired token" :=
  ⟨(validator_failure_uniform "k" 50).1 "garbage",
   (validator_failure_uniform "k" 50).2.1 _ _ _ rfl,
   (validator_failure_uniform "k" 50).2.2.1 _ _ _ (by decide),
   (validator_failure_uniform "k" 200).2.2.2.1 _ _ 100 rfl (by decide)⟩

/-- C10: the keyfunc's method check only asks for the HMAC family, so a
token whose header names any HMAC algorithm and whose signature was produced
with the server secret under that same algorithm validates successfully
whenever it is not expired — in particular HS384 and HS512 tokens, not only
the HS256 used at issuance. -/
theorem validate_accepts_hmac_family (secret : String) (claims : MapClaims)
    (now : Int) (alg : SigAlg) (halg : alg.isHMAC = true)
    (hexp : ∀ e ∈ claims.exp, now < e) :
    ValidateToken secret now
        (.wellFormed alg claims (hmacSign alg secret claims)) =
      .ok ⟨alg, claims, true⟩ := by
  cases hx : claims.exp with
  | none => simp [ValidateToken, jwtParse, halg, hx]
  | some e =>
    have he : now < e := hexp e (by rw [hx]; rfl)
    simp [ValidateToken, jwtParse, halg, hx, he]

/-- Witness for C10: an HS384 token signed with the server secret validates
before its expiry. -/
theorem validate_accepts_hmac_family_witness :
    ValidateToken "k" 10 (.wellFormed .HS384 ⟨some 7, some 1000, some 0⟩
        (hmacSign .HS384 "k" ⟨some 7, some 1000, some 0⟩)) =
      .ok ⟨.HS384, ⟨some 7, some 1000, some 0⟩, true⟩ :=
  validate_accepts_hmac_family "k" ⟨some 7, some 1000, some 0⟩ 10 .HS384 rfl
    (by intro e he
        simp only [Option.mem_def, Option.some.injEq] at he
        omega)

/-! ## Theorems: inventory -/

/-- An absent SKU lookup means exactly that no non-deleted item carries the
SKU. -/
theorem FindBySKU_eq_none_iff (st : ItemStore) (sku : String) :
    FindBySKU st sku = none ↔
      ∀ x ∈ st.items, x.deleted = false → x.sku ≠ sku := by
  unfold FindBySKU activeItems
  rw [List.find?_eq_none]
  constructor
  · intro h x hx hdel
    have : x ∈ st.items.filter (fun i => !i.deleted) :=
      List.mem_filter.mpr ⟨hx, by simp [hdel]⟩
    simpa using h x this
  · intro h x hx
    have hmem := (List.mem_filter.mp hx).1
    have hdel : x.deleted = false := by
      simpa using (List.mem_filter.mp hx).2
    simpa using h x hmem hdel

/-- C6 (amended): a SKU carried by an existing non-deleted item yields the
service Conflict with the store untouched; a SKU carried by no stored row
at all (soft-deleted rows included) creates an item retrievable both by id
through GetItemByID and by SKU through FindBySKU; but a SKU unique among
non-deleted items that a soft-deleted row still carries passes the service
check and then fails at persistence with the store's duplicate-key error,
the store again untouched. -/
theorem create_item_conflict_or_retrievable (st : ItemStore)
    (req : CreateItemRequest) (hwf : IdsWf st) :
    (∀ existing ∈ st.items, existing.deleted = false → existing.sku = req.sku →
      CreateItem st req = (.error "item with this SKU already exists", st)) ∧
    ((∀ x ∈ st.items, x.sku ≠ req.sku) →
      ∃ item st2, CreateItem st req = (.ok item, st2) ∧
        GetItemByID st2 item.id = .ok item ∧
        FindBySKU st2 req.sku = some item) ∧
    (FindBySKU st req.sku = none →
      (∃ x ∈ st.items, x.sku = req.sku) →
      CreateItem st req = (.error duplicateKeyError, st)) := by
  refine ⟨?_, ?_, ?_⟩
  · intro ex hmem hdel hsku
    cases hs : FindBySKU st req.sku with
    | some it => simp [CreateItem, hs]
    | none =>
      exact absurd hsku ((FindBySKU_eq_none_iff st req.sku).mp hs ex hmem hdel)
  · intro hall
    have hnone : FindBySKU st req.sku = none :=
      (FindBySKU_eq_none_iff st req.sku).mpr (fun x hx _ => hall x hx)
    have hno : ¬ ∃ x ∈ st.items, x.sku = (newItem st req).sku := by
      rintro ⟨x, hx, hxs⟩
      exact hall x hx hxs
    refine ⟨newItem st req, insertRow st (newItem st req), ?_, ?_, ?_⟩
    · simp [CreateItem, hnone, repoCreate, hno]
    · have h1 : (st.items.filter (fun i => !i.deleted)).find?
          (fun i => i.id == st.nextId) = none := by
        rw [List.find?_eq_none]
        intro a ha
        have hlt := hwf.2 a (List.mem_filter.mp ha).1
        simp only [beq_iff_eq]
        omega
      unfold GetItemByID FindByID activeItems insertRow
      simp [newItem, List.filter_append, List.find?_append, h1]
    · unfold FindBySKU activeItems at hnone ⊢
      unfold insertRow
      simp [newItem, List.filter_append, List.find?_append, hnone]
  · rintro hnone ⟨x, hx, hxsku⟩
    have hyes : ∃ y ∈ st.items, y.sku = (newItem st req).sku := ⟨x, hx, hxsku⟩
    simp [CreateItem, hnone, repoCreate, hyes]

/-- C6 counterexample: at a store reachable by create-then-delete, the SKU
LAPTOP-001 is unique among non-deleted items (FindBySKU finds nothing), yet
CreateItem with that SKU does not persist an item — the INSERT hits the
all-rows unique index on sku and the store is unchanged — refuting the
claim's success branch as stated. -/
theorem create_item_reused_deleted_sku_counterexample :
    (⟨[⟨1, "Laptop", "LAPTOP-001", "", 25, 1300, "Electronics", true⟩], 2⟩ :
        ItemStore) =
      (DeleteItem (CreateItem emptyItemStore
        ⟨"Laptop", "LAPTOP-001", "", 25, 1300, "Electronics"⟩).2 1).2 ∧
    FindBySKU
      ⟨[⟨1, "Laptop", "LAPTOP-001", "", 25, 1300, "Electronics", true⟩], 2⟩
      "LAPTOP-001" = none ∧
    CreateItem
        ⟨[⟨1, "Laptop", "LAPTOP-001", "", 25, 1300, "Electronics", true⟩], 2⟩
        ⟨"Laptop B", "LAPTOP-001", "", 5, 999, "Electronics"⟩ =
      (.error duplicateKeyError,
        ⟨[⟨1, "Laptop", "LAPTOP-001", "", 25, 1300, "Electronics", true⟩],
          2⟩) :=
  ⟨by decide, by decide, rfl⟩

/-- Witness for C6: with a live laptop in store, reusing its SKU is the
service conflict with the store unchanged; a fresh SKU is created and
retrievable by id and SKU; and with only a soft-deleted laptop holding the
SKU, creation fails at the store's unique index. -/
theorem create_item_conflict_or_retrievable_witness :
    (CreateItem
        ⟨[⟨1, "Laptop", "LAPTOP-001", "", 25, 1300, "Electronics", false⟩], 2⟩
        ⟨"Laptop 2", "LAPTOP-001", "", 5, 999, "Electronics"⟩ =
      (.error "item with this SKU already exists",
        ⟨[⟨1, "Laptop", "LAPTOP-001", "", 25, 1300, "Electronics", false⟩],
          2⟩)) ∧
    (∃ item st2,
      CreateItem
          ⟨[⟨1, "Laptop", "LAPTOP-001", "", 25, 1300, "Electronics", false⟩],
            2⟩
          ⟨"Mouse", "MOUSE-001", "", 5, 20, "Electronics"⟩ = (.ok item, st2) ∧
      GetItemByID st2 item.id = .ok item ∧
      FindBySKU st2 "MOUSE-001" = some item) ∧
    (CreateItem
        ⟨[⟨1, "Laptop", "LAPTOP-001", "", 25, 1300, "Electronics", true⟩], 2⟩
        ⟨"Laptop C", "LAPTOP-001", "", 5, 999, "Electronics"⟩ =
      (.error duplicateKeyError,
        ⟨[⟨1, "Laptop", "LAPTOP-001", "", 25, 1300, "Electronics", true⟩],
          2⟩)) :=
  ⟨(create_item_conflict_or_retrievable _ _ ⟨by decide, by decide⟩).1
      ⟨1, "Laptop", "LAPTOP-001", "", 25, 1300, "Electronics", false⟩
      (by decide) rfl rfl,
   (create_item_conflict_or_retrievable _ _ ⟨by decide, by decide⟩).2.1
      (by decide),
   (create_item_conflict_or_retrievable _ _ ⟨by decide, by decide⟩).2.2
      (by decide)
      ⟨⟨1, "Laptop", "LAPTOP-001", "", 25, 1300, "Electronics", true⟩,
        by decide, rfl⟩⟩

/-- A successful SKU branch leaves the item unchanged, or changes exactly
the SKU to a supplied value that differs from the current one and that no
non-deleted item carries. -/
theorem applySkuUpdate_ok (st : ItemStore) (item0 b : Item)
    (req : UpdateItemRequest) (h : applySkuUpdate st item0 req = .ok b) :
    b = item0 ∨ ∃ s, req.sku = some s ∧ s ≠ item0.sku ∧
      FindBySKU st s = none ∧ b = { item0 with sku := s } := by
  unfold applySkuUpdate at h
  split at h
  next s hs =>
    split at h
    next hne =>
      split at h
      next it hf => exact absurd h (by simp)
      next hf =>
        simp only [Except.ok.injEq] at h
        exact .inr ⟨s, hs, hne, hf, h.symm⟩
    next hne =>
      simp only [Except.ok.injEq] at h
      exact .inl h.symm
  next hs =>
    simp only [Except.ok.injEq] at h
    exact .inl h.symm

/-- C7: for a successful update of an existing item, every field absent from
the request keeps its stored value in the resulting item (partial/PATCH
semantics); in particular a request supplying only a quantity changes the
quantity and nothing else. -/
theorem update_item_partial_semantics (st : ItemStore) (id : Nat)
    (req : UpdateItemRequest) (item0 item1 : Item) (st2 : ItemStore)
    (hfind : FindByID st id = some item0)
    (hok : UpdateItem st id req = (.ok item1, st2)) :
    (req.name = none → item1.name = item0.name) ∧
    (req.sku = none → item1.sku = item0.sku) ∧
    (req.description = none → item1.description = item0.description) ∧
    (req.quantity = none → item1.quantity = item0.quantity) ∧
    (req.price = none → item1.price = item0.price) ∧
    (req.category = none → item1.category = item0.category) ∧
    (∀ q, req = ⟨none, none, none, some q, none, none⟩ →
      item1 = { item0 with quantity := q }) := by
  unfold UpdateItem at hok
  split at hok
  next heq => rw [hfind] at heq; cases heq
  next item0h heq =>
    rw [hfind] at heq
    obtain rfl : item0 = item0h := by
      simpa using heq
    split at hok
    next e ha => simp at hok
    next b ha =>
    split at hok
    next e hr => simp at hok
    next stq hr =>
    simp only [Prod.mk.injEq, Except.ok.injEq] at hok
    obtain ⟨hb1, -⟩ := hok
    rcases applySkuUpdate_ok st item0 b req ha with hb | ⟨s, hs, -, -, hb⟩
    · subst hb
      subst hb1
      refine ⟨?_, ?_, ?_, ?_, ?_, ?_, ?_⟩ <;>
        first
        | (intro h; simp [applyFieldUpdates, h])
        | (intro q hreq; subst hreq; simp [applyFieldUpdates])
    · subst hb
      subst hb1
      refine ⟨?_, ?_, ?_, ?_, ?_, ?_, ?_⟩
      · intro h; simp [applyFieldUpdates, h]
      · intro h; rw [h] at hs; cases hs
      · intro h; simp [applyFieldUpdates, h]
      · intro h; simp [applyFieldUpdates, h]
      · intro h; simp [applyFieldUpdates, h]
      · intro h; simp [applyFieldUpdates, h]
      · intro q hreq; rw [hreq] at hs; cases hs

/-- Witness for C7: updating the laptop with only `{quantity := 30}` yields
the laptop with quantity 30 and every other field as stored. -/
theorem update_item_partial_semantics_witness :
    ((none : Option String) = none →
      ({ id := 1, name := "Laptop", sku := "LAPTOP-001", description := "",
         quantity := 30, price := 1300, category := "Electronics",
         deleted := false } : Item).name = "Laptop") ∧
    ((none : Option String) = none →
      ({ id := 1, name := "Laptop", sku := "LAPTOP-001", description := "",
         quantity := 30, price := 1300, category := "Electronics",
         deleted := false } : Item).sku = "LAPTOP-001") ∧
    ((none : Option String) = none →
      ({ id := 1, name := "Laptop", sku := "LAPTOP-001", description := "",
         quantity := 30, price := 1300, category := "Electronics",
         deleted := false } : Item).description = "") ∧
    ((some (30 : Int) : Option Int) = none →
      ({ id := 1, name := "Laptop", sku := "LAPTOP-001", description := "",
         quantity := 30, price := 1300, category := "Electronics",
         deleted := false } : Item).quantity = 25) ∧
    ((none : Option Rat) = none →
      ({ id := 1, name := "Laptop", sku := "LAPTOP-001", description := "",
         quantity := 30, price := 1300, category := "Electronics",
         deleted := false } : Item).price = 1300) ∧
    ((none : Option String) = none →
      ({ id := 1, name := "Laptop", sku := "LAPTOP-001", description := "",
         quantity := 30, price := 1300, category := "Electronics",
         deleted := false } : Item).category = "Electronics") ∧
    (∀ q, (⟨none, none, none, some 30, none, none⟩ : UpdateItemRequest) =
        ⟨none, none, none, some q, none, none⟩ →
      ({ id := 1, name := "Laptop", sku := "LAPTOP-001", description := "",
         quantity := 30, price := 1300, category := "Electronics",
         deleted := false } : Item) =
        { id := 1, name := "Laptop", sku := "LAPTOP-001", description := "",
          quantity := q, price := 1300, category := "Electronics",
          deleted := false }) := by
  have h := update_item_partial_semantics
    ⟨[⟨1, "Laptop", "LAPTOP-001", "", 25, 1300, "Electronics", false⟩], 2⟩ 1
    ⟨none, none, none, some 30, none, none⟩
    ⟨1, "Laptop", "LAPTOP-001", "", 25, 1300, "Electronics", false⟩
    ⟨1, "Laptop", "LAPTOP-001", "", 30, 1300, "Electronics", false⟩
    ⟨[⟨1, "Laptop", "LAPTOP-001", "", 30, 1300, "Electronics", false⟩], 2⟩
    (by decide) rfl
  exact h

/-- After a soft delete of an id, no non-deleted row carries that id. -/
theorem repoDelete_active_id_ne (st : ItemStore) (id : Nat) :
    ∀ x ∈ activeItems (repoDelete st id), x.id ≠ id := by
  intro x hx
  unfold activeItems repoDelete at hx
  simp only [List.mem_filter, List.mem_map] at hx
  obtain ⟨⟨j, hj, hgj⟩, hdel⟩ := hx
  by_cases hc : (j.id == id && !j.deleted) = true
  · rw [if_pos hc] at hgj
    rw [← hgj] at hdel
    simp at hdel
  · rw [if_neg hc] at hgj
    subst hgj
    rcases Bool.and_eq_false_iff.mp (Bool.eq_false_iff.mpr hc) with h | h
    · simpa using h
    · rw [h] at hdel
      simp at hdel

/-- C8: deleting a present item succeeds and soft-deletes it — the row
survives with its deleted flag set, GetItemByID then answers NotFound, and
the item's id is absent from GetAllItems; deleting or fetching an id with no
non-deleted item answers NotFound, with the existence check leaving the
store untouched. -/
theorem delete_item_soft_delete (st : ItemStore) (id : Nat) :
    (∀ item, FindByID st id = some item →
      DeleteItem st id = (.ok (), repoDelete st id) ∧
      { item with deleted := true } ∈ (repoDelete st id).items ∧
      GetItemByID (repoDelete st id) id = .error "item not found" ∧
      ∀ j ∈ GetAllItems (repoDelete st id), j.id ≠ id) ∧
    (FindByID st id = none →
      DeleteItem st id = (.error "item not found", st) ∧
      GetItemByID st id = .error "item not found") := by
  constructor
  · intro item hfind
    have hfind' : (activeItems st).find? (fun i => i.id == id) = some item :=
      hfind
    have hmemAct : item ∈ activeItems st := List.mem_of_find?_eq_some hfind'
    have hid := List.find?_some hfind'
    have hmem : item ∈ st.items := (List.mem_filter.mp hmemAct).1
    have hnotdel : (!item.deleted) = true := (List.mem_filter.mp hmemAct).2
    refine ⟨by simp [DeleteItem, hfind], ?_, ?_, ?_⟩
    · have hcond : (item.id == id && !item.deleted) = true := by
        rw [Bool.and_eq_true]
        exact ⟨hid, hnotdel⟩
      show { item with deleted := true } ∈ st.items.map (fun j =>
        if j.id == id && !j.deleted then { j with deleted := true } else j)
      refine List.mem_map.mpr ⟨item, hmem, ?_⟩
      simp [hcond]
    · have hnone : FindByID (repoDelete st id) id = none := by
        unfold FindByID
        rw [List.find?_eq_none]
        intro a ha
        simpa using repoDelete_active_id_ne st id a ha
      simp [GetItemByID, hnone]
    · intro j hj
      exact repoDelete_active_id_ne st id j hj
  · intro hfind
    exact ⟨by simp [DeleteItem, hfind], by simp [GetItemByID, hfind]⟩

/-- Witness for C8: deleting the stored laptop tombstones it, GetItemByID
answers NotFound afterwards, the listing no longer carries id 1, and a
bogus id is NotFound up front. -/
theorem delete_item_soft_delete_witness :
    (DeleteItem
        ⟨[⟨1, "Laptop", "LAPTOP-001", "", 25, 1300, "Electronics", false⟩], 2⟩
        1 =
      (.ok (), repoDelete
        ⟨[⟨1, "Laptop", "LAPTOP-001", "", 25, 1300, "Electronics", false⟩], 2⟩
        1) ∧
      (⟨1, "Laptop", "LAPTOP-001", "", 25, 1300, "Electronics", true⟩ : Item) ∈
        (repoDelete
          ⟨[⟨1, "Laptop", "LAPTOP-001", "", 25, 1300, "Electronics", false⟩],
            2⟩ 1).items ∧
      GetItemByID (repoDelete
        ⟨[⟨1, "Laptop", "LAPTOP-001", "", 25, 1300, "Electronics", false⟩], 2⟩
        1) 1 = .error "item not found" ∧
      ∀ j ∈ GetAllItems (repoDelete
        ⟨[⟨1, "Laptop", "LAPTOP-001", "", 25, 1300, "Electronics", false⟩], 2⟩
        1), j.id ≠ 1) ∧
    (DeleteItem
        ⟨[⟨1, "Laptop", "LAPTOP-001", "", 25, 1300, "Electronics", false⟩], 2⟩
        9 =
      (.error "item not found",
        ⟨[⟨1, "Laptop", "LAPTOP-001", "", 25, 1300, "Electronics", false⟩],
          2⟩) ∧
      GetItemByID
        ⟨[⟨1, "Laptop", "LAPTOP-001", "", 25, 1300, "Electronics", false⟩], 2⟩
        9 = .error "item not found") :=
  ⟨(delete_item_soft_delete _ 1).1
      ⟨1, "Laptop", "LAPTOP-001", "", 25, 1300, "Electronics", false⟩
      (by decide),
   (delete_item_soft_delete _ 9).2 (by decide)⟩

/-- Facts carried by a successful FindByID: membership, liveness, and the
id. -/
theorem FindByID_some_facts (st : ItemStore) (id : Nat) (item : Item)
    (h : FindByID st id = some item) :
    item ∈ st.items ∧ item.deleted = false ∧ item.id = id := by
  have h' : (activeItems st).find? (fun i => i.id == id) = some item := h
  have hmemAct : item ∈ activeItems st := List.mem_of_find?_eq_some h'
  have hid := List.find?_some h'
  refine ⟨(List.mem_filter.mp hmemAct).1, ?_, by simpa using hid⟩
  have := (List.mem_filter.mp hmemAct).2
  simpa using this

/-- A saved row keeps its primary key. -/
theorem updMark_id (it j : Item) :
    (if j.id == it.id then it else j).id = j.id := by
  by_cases hc : (j.id == it.id) = true
  · rw [if_pos hc]
    exact (beq_iff_eq.mp hc).symm
  · rw [if_neg hc]

/-- A successful save of a row that is live, keeps its id, and whose SKU is
either unchanged or fresh among non-deleted rows, preserves the full state
invariant. -/
theorem inv_saveRow (st : ItemStore) (item0 new : Item)
    (hmem0 : item0 ∈ st.items) (hdel0 : item0.deleted = false)
    (hnodup : (st.items.map Item.id).Nodup)
    (hbound : ∀ i ∈ st.items, i.id < st.nextId)
    (hsku : SkuUniqueActive st) (hnn : NonNegValues st)
    (hid : new.id = item0.id) (_hdel : new.deleted = false)
    (hq : 0 ≤ new.quantity) (hp : 0 ≤ new.price)
    (hskuok : new.sku = item0.sku ∨
      ∀ x ∈ st.items, x.deleted = false → x.sku ≠ new.sku) :
    Inv (saveRow st new) := by
  have hmapid : (saveRow st new).items.map Item.id = st.items.map Item.id := by
    unfold saveRow
    rw [List.map_map]
    exact List.map_congr_left (fun j _ => updMark_id new j)
  refine ⟨⟨?_, ?_⟩, ?_, ?_⟩
  · rw [hmapid]
    exact hnodup
  · intro i hi
    unfold saveRow at hi ⊢
    obtain ⟨j, hj, hgj⟩ := List.mem_map.mp hi
    rw [← hgj]
    rw [updMark_id new j]
    exact hbound j hj
  · unfold SkuUniqueActive saveRow
    intro a' ha' b' hb' hda' hdb' hss
    obtain ⟨a, hamem, hga⟩ := List.mem_map.mp ha'
    obtain ⟨b, hbmem, hgb⟩ := List.mem_map.mp hb'
    have hga_id : a'.id = a.id := by rw [← hga]; exact updMark_id new a
    have hgb_id : b'.id = b.id := by rw [← hgb]; exact updMark_id new b
    by_cases hca : (a.id == new.id) = true
    · by_cases hcb : (b.id == new.id) = true
      · rw [hga_id, hgb_id, beq_iff_eq.mp hca, beq_iff_eq.mp hcb]
      · rw [if_neg hcb] at hgb
        subst hgb
        rw [if_pos hca] at hga
        subst hga
        rcases hskuok with hnew | hfresh
        · have hb0 : item0.id = b.id :=
            hsku item0 hmem0 b hbmem hdel0 hdb' (by rw [← hnew]; exact hss)
          rw [hga_id, hgb_id] at *
          rw [beq_iff_eq.mp hca, hid, hb0]
        · exact absurd hss.symm (hfresh b hbmem hdb')
    · by_cases hcb : (b.id == new.id) = true
      · rw [if_neg hca] at hga
        subst hga
        rw [if_pos hcb] at hgb
        subst hgb
        rcases hskuok with hnew | hfresh
        · have ha0 : a.id = item0.id :=
            hsku a hamem item0 hmem0 hda' hdel0 (by rw [hss, hnew])
          rw [hga_id, hgb_id, beq_iff_eq.mp hcb, hid, ha0]
        · exact absurd hss (hfresh a hamem hda')
      · rw [if_neg hca] at hga
        rw [if_neg hcb] at hgb
        subst hga
        subst hgb
        exact hsku a hamem b hbmem hda' hdb' hss
  · unfold NonNegValues saveRow
    intro i hi
    obtain ⟨j, hj, hgj⟩ := List.mem_map.mp hi
    by_cases hc : (j.id == new.id) = true
    · rw [if_pos hc] at hgj
      rw [← hgj]
      exact ⟨hq, hp⟩
    · rw [if_neg hc] at hgj
      rw [← hgj]
      exact hnn j hj

/-- The patched item of an update with boundary-validated numeric fields
keeps quantity and price non-negative. -/
theorem applyFieldUpdates_nonneg (item : Item) (req : UpdateItemRequest)
    (hreq : req.NonNegative) (hq : 0 ≤ item.quantity) (hp : 0 ≤ item.price) :
    0 ≤ (applyFieldUpdates item req).quantity ∧
      0 ≤ (applyFieldUpdates item req).price := by
  constructor
  · cases hrq : req.quantity with
    | some q =>
      have := hreq.1 q (by rw [hrq]; rfl)
      simpa [applyFieldUpdates, hrq] using this
    | none => simpa [applyFieldUpdates, hrq] using hq
  · cases hrp : req.price with
    | some p =>
      have := hreq.2 p (by rw [hrp]; rfl)
      simpa [applyFieldUpdates, hrp] using this
    | none => simpa [applyFieldUpdates, hrp] using hp

/-- CreateItem preserves the state invariant when the request passed the
boundary's non_negative validation. -/
theorem inv_create (st : ItemStore) (req : CreateItemRequest)
    (hinv : Inv st) (hreq : req.NonNegative) : Inv (CreateItem st req).2 := by
  obtain ⟨⟨hnodup, hbound⟩, hsku, hnn⟩ := hinv
  cases hs : FindBySKU st req.sku with
  | some it =>
    have h2 : (CreateItem st req).2 = st := by simp [CreateItem, hs]
    rw [h2]
    exact ⟨⟨hnodup, hbound⟩, hsku, hnn⟩
  | none =>
    have hfresh := (FindBySKU_eq_none_iff st req.sku).mp hs
    by_cases hdup : (st.items.any (fun j => j.sku == req.sku)) = true
    · have h2 : (CreateItem st req).2 = st := by
        simp [CreateItem, hs, repoCreate, newItem, hdup]
      rw [h2]
      exact ⟨⟨hnodup, hbound⟩, hsku, hnn⟩
    · have h2 : (CreateItem st req).2 = insertRow st (newItem st req) := by
        simp [CreateItem, hs, repoCreate, newItem, hdup]
      rw [h2]
      refine ⟨⟨?_, ?_⟩, ?_, ?_⟩
      · show ((st.items ++ [newItem st req]).map Item.id).Nodup
        rw [List.map_append]
        refine List.Nodup.append hnodup (List.nodup_singleton _) ?_
        intro x hx hx1
        simp only [newItem, List.map_cons, List.map_nil,
          List.mem_singleton] at hx1
        obtain ⟨i, hi, hix⟩ := List.mem_map.mp hx
        have := hbound i hi
        omega
      · intro i hi
        show i.id < st.nextId + 1
        rcases List.mem_append.mp hi with hi | hi
        · have := hbound i hi
          omega
        · simp only [List.mem_singleton] at hi
          subst hi
          exact Nat.lt_succ_self _
      · unfold SkuUniqueActive
        intro a ha b hb hda hdb hss
        rcases List.mem_append.mp ha with ha | ha <;>
          rcases List.mem_append.mp hb with hb | hb
        · exact hsku a ha b hb hda hdb hss
        · simp only [List.mem_singleton] at hb
          subst hb
          exact absurd hss (hfresh a ha hda)
        · simp only [List.mem_singleton] at ha
          subst ha
          exact absurd hss.symm (hfresh b hb hdb)
        · simp only [List.mem_singleton] at ha hb
          subst ha
          subst hb
          rfl
      · unfold NonNegValues
        intro i hi
        rcases List.mem_append.mp hi with hi | hi
        · exact hnn i hi
        · simp only [List.mem_singleton] at hi
          subst hi
          exact ⟨hreq.1, hreq.2⟩

/-- UpdateItem preserves the state invariant when the request passed the
boundary's non_negative validation. -/
theorem inv_update (st : ItemStore) (id : Nat) (req : UpdateItemRequest)
    (hinv : Inv st) (hreq : req.NonNegative) : Inv (UpdateItem st id req).2 := by
  obtain ⟨⟨hnodup, hbound⟩, hsku, hnn⟩ := hinv
  cases hf : FindByID st id with
  | none =>
    have h2 : (UpdateItem st id req).2 = st := by simp [UpdateItem, hf]
    rw [h2]
    exact ⟨⟨hnodup, hbound⟩, hsku, hnn⟩
  | some item0 =>
    obtain ⟨hmem0, hdel0, hid0⟩ := FindByID_some_facts st id item0 hf
    cases ha : applySkuUpdate st item0 req with
    | error e =>
      have h2 : (UpdateItem st id req).2 = st := by simp [UpdateItem, hf, ha]
      rw [h2]
      exact ⟨⟨hnodup, hbound⟩, hsku, hnn⟩
    | ok item1 =>
      by_cases hdup : (st.items.any (fun j =>
          j.sku == (applyFieldUpdates item1 req).sku &&
            j.id != (applyFieldUpdates item1 req).id)) = true
      · have h2 : (UpdateItem st id req).2 = st := by
          simp [UpdateItem, hf, ha, repoUpdate, hdup]
        rw [h2]
        exact ⟨⟨hnodup, hbound⟩, hsku, hnn⟩
      · have h2 : (UpdateItem st id req).2 =
            saveRow st (applyFieldUpdates item1 req) := by
          simp [UpdateItem, hf, ha, repoUpdate, hdup]
        rw [h2]
        rcases applySkuUpdate_ok st item0 item1 req ha with
          hb | ⟨s, hsreq, hsne, hsnone, hb⟩
        · subst hb
          have hnneg := applyFieldUpdates_nonneg item1 req hreq
            (hnn item1 hmem0).1 (hnn item1 hmem0).2
          exact inv_saveRow st item1 _ hmem0 hdel0 hnodup hbound hsku hnn
            rfl hdel0 hnneg.1 hnneg.2 (.inl rfl)
        · subst hb
          have hnneg := applyFieldUpdates_nonneg { item0 with sku := s } req
            hreq (hnn item0 hmem0).1 (hnn item0 hmem0).2
          refine inv_saveRow st item0 _ hmem0 hdel0 hnodup hbound hsku hnn
            rfl hdel0 hnneg.1 hnneg.2 (.inr ?_)
          intro x hx hxdel
          exact (FindBySKU_eq_none_iff st s).mp hsnone x hx hxdel

/-- DeleteItem preserves the state invariant. -/
theorem inv_delete (st : ItemStore) (id : Nat) (hinv : Inv st) :
    Inv (DeleteItem st id).2 := by
  obtain ⟨⟨hnodup, hbound⟩, hsku, hnn⟩ := hinv
  cases hf : FindByID st id with
  | none =>
    have h2 : (DeleteItem st id).2 = st := by simp [DeleteItem, hf]
    rw [h2]
    exact ⟨⟨hnodup, hbound⟩, hsku, hnn⟩
  | some it =>
    have h2 : (DeleteItem st id).2 = repoDelete st id := by
      simp [DeleteItem, hf]
    rw [h2]
    have hgid : ∀ j : Item,
        (if j.id == id && !j.deleted then { j with deleted := true } else j).id
          = j.id := by
      intro j
      by_cases hc : (j.id == id && !j.deleted) = true
      · rw [if_pos hc]
      · rw [if_neg hc]
    have hmapid : (repoDelete st id).items.map Item.id =
        st.items.map Item.id := by
      unfold repoDelete
      rw [List.map_map]
      exact List.map_congr_left (fun j _ => hgid j)
    have hsame : ∀ j : Item, j ∈ st.items →
        (if j.id == id && !j.deleted then { j with deleted := true } else j)
            = j ∨
          (if j.id == id && !j.deleted then { j with deleted := true } else j)
            = { j with deleted := true } := by
      intro j _
      by_cases hc : (j.id == id && !j.deleted) = true
      · rw [if_pos hc]
        exact .inr rfl
      · rw [if_neg hc]
        exact .inl rfl
    refine ⟨⟨?_, ?_⟩, ?_, ?_⟩
    · rw [hmapid]
      exact hnodup
    · intro i hi
      unfold repoDelete at hi ⊢
      obtain ⟨j, hj, hgj⟩ := List.mem_map.mp hi
      rw [← hgj, hgid j]
      exact hbound j hj
    · unfold SkuUniqueActive repoDelete
      intro a' ha' b' hb' hda' hdb' hss
      obtain ⟨a, hamem, hga⟩ := List.mem_map.mp ha'
      obtain ⟨b, hbmem, hgb⟩ := List.mem_map.mp hb'
      have hga' : a = a' := by
        rcases hsame a hamem with h | h
        · rw [h] at hga
          exact hga
        · rw [h] at hga
          rw [← hga] at hda'
          simp at hda'
      have hgb' : b = b' := by
        rcases hsame b hbmem with h | h
        · rw [h] at hgb
          exact hgb
        · rw [h] at hgb
          rw [← hgb] at hdb'
          simp at hdb'
      subst hga'
      subst hgb'
      exact hsku a hamem b hbmem hda' hdb' hss
    · unfold NonNegValues repoDelete
      intro i hi
      obtain ⟨j, hj, hgj⟩ := List.mem_map.mp hi
      rcases hsame j hj with h | h <;> rw [h] at hgj <;> rw [← hgj]
      · exact hnn j hj
      · exact hnn j hj

/-- The full invariant is preserved along any list of validated operations. -/
theorem inv_foldl (st : ItemStore) (ops : List InvOp) (hinv : Inv st)
    (hops : ∀ op ∈ ops, op.NonNegative) : Inv (ops.foldl applyOp st) := by
  induction ops generalizing st with
  | nil => exact hinv
  | cons op rest ih =>
    rw [List.foldl_cons]
    apply ih
    · cases op with
      | create req =>
        exact inv_create st req hinv (hops _ (List.mem_cons_self _ _))
      | update i req =>
        exact inv_update st i req hinv (hops _ (List.mem_cons_self _ _))
      | delete i => exact inv_delete st i hinv
    · intro o ho
      exact hops o (List.mem_cons_of_mem _ ho)

/-- C9: under boundary-validated requests, each business-layer operation —
CreateItem, UpdateItem, DeleteItem — preserves the invariant that SKUs are
unique across non-deleted items and that quantity and price are
non-negative (together with store well-formedness), and therefore no
reachable sequence of such operations breaks it. -/
theorem inventory_invariants_preserved (st : ItemStore) (hinv : Inv st) :
    (∀ req : CreateItemRequest, req.NonNegative → Inv (CreateItem st req).2) ∧
    (∀ id req, UpdateItemRequest.NonNegative req →
      Inv (UpdateItem st id req).2) ∧
    (∀ id, Inv (DeleteItem st id).2) ∧
    (∀ ops : List InvOp, (∀ op ∈ ops, op.NonNegative) →
      Inv (ops.foldl applyOp st)) :=
  ⟨fun req hreq => inv_create st req hinv hreq,
   fun id req hreq => inv_update st id req hinv hreq,
   fun id => inv_delete st id hinv,
   fun ops hops => inv_foldl st ops hinv hops⟩

/-- Witness for C9: starting from the empty store, creating the laptop,
patching its quantity to 30, and deleting it keeps the invariant at every
step, and each single operation from the empty store does too. -/
theorem inventory_invariants_preserved_witness :
    Inv (([InvOp.create ⟨"Laptop", "LAPTOP-001", "", 25, 1300, "Electronics"⟩,
        InvOp.update 1 ⟨none, none, none, some 30, none, none⟩,
        InvOp.delete 1] : List InvOp).foldl applyOp emptyItemStore) ∧
    Inv (CreateItem emptyItemStore
      ⟨"Laptop", "LAPTOP-001", "", 25, 1300, "Electronics"⟩).2 := by
  have hinv0 : Inv emptyItemStore := by
    refine ⟨⟨?_, ?_⟩, ?_, ?_⟩
    · exact List.nodup_nil
    · intro i hi
      simp [emptyItemStore] at hi
    · intro a ha
      simp [emptyItemStore] at ha
    · intro i hi
      simp [emptyItemStore] at hi
  have hops : ∀ op ∈ ([InvOp.create
        ⟨"Laptop", "LAPTOP-001", "", 25, 1300, "Electronics"⟩,
      InvOp.update 1 ⟨none, none, none, some 30, none, none⟩,
      InvOp.delete 1] : List InvOp), op.NonNegative := by
    intro op hop
    simp only [List.mem_cons, List.not_mem_nil, or_false] at hop
    rcases hop with rfl | rfl | rfl
    · exact ⟨by norm_num, by norm_num⟩
    · constructor
      · intro q hq
        simp only [Option.mem_def, Option.some.injEq] at hq
        omega
      · intro p hp
        simp at hp
    · trivial
  exact ⟨(inventory_invariants_preserved emptyItemStore hinv0).2.2.2 _ hops,
    (inventory_invariants_preserved emptyItemStore hinv0).1 _
      ⟨by norm_num, by norm_num⟩⟩

end GoInventory
